import Mathlib

/-!
Verification of the devcheck finding/rule evaluation engine.

This file shallowly embeds the core checker of the devcheck repository
(`internal/checker/checker.go`, `internal/tools/tools.go`,
`internal/profiles/profiles.go`, `internal/models/*.go`) into Lean and
proves or refutes the specification claims about it.

Conventions of the embedding:
- Files read from disk are modelled as `Option (List String)` (the list of
  lines produced by the line scanner); `none` models a missing or unreadable
  file, which the Go code treats as "no contribution".
- Go maps from string keys are modelled as association lists with distinct
  keys (`envInsert` updates in place or appends). Where the Go code only
  tests membership or counts per key, the statements proved are order
  independent.
- Go `regexp` use is embedded as follows: the single concrete compose
  variable-reference pattern is translated into an executable scanner
  (`scanVarRefs`); the per-ecosystem source-scanning patterns and
  user-supplied custom-rule patterns are abstracted as function parameters
  (`extract`, `compile`) that the theorems universally quantify over.
- Machine integers are modelled as `Nat`; none of the claims here depends
  on integer overflow.
-/

namespace DevCheck

/-! ### Data model: `internal/models/finding.go` -/

/-- Severity of a finding (`models.Severity`). -/
inductive Severity where
  | blocking
  | warning
  | info
deriving DecidableEq, Repr

/-- `models.SeverityLevel`: numeric level for severity comparison. -/
def SeverityLevel : Severity → Nat
  | .blocking => 3
  | .warning => 2
  | .info => 1

/-- `models.SourceLocation` (the `column` field is never set by the checker). -/
structure SourceLocation where
  file : String
  line : Nat
deriving DecidableEq, Repr

/-- `models.Finding`. -/
structure Finding where
  code : String
  severity : Severity
  title : String
  details : String
  files : List SourceLocation
  suggestedFix : String
deriving DecidableEq, Repr

/-- `models.NewFinding`. -/
def NewFinding (code : String) (severity : Severity) (title : String) : Finding :=
  { code := code, severity := severity, title := title,
    details := "", files := [], suggestedFix := "" }

/-- An artifact whose raw content the checker reads: path, the detector's
`Found` flag, and the read result (`none` = `os.ReadFile`/`os.Open` error). -/
structure FileArt where
  path : String
  found : Bool
  content : Option (List String)
deriving DecidableEq, Repr

/-! ### Character-level helpers for the Go `strings` functions used -/

/-- The character class trimmed by Go `strings.TrimSpace`
(ASCII whitespace plus NEL and NBSP; other Unicode `Zs` code points are not
used by any claim and are omitted). -/
def isSpaceChar (c : Char) : Bool :=
  c == ' ' || c == '\t' || c == '\n' || c == '\r' || c == '\x0b' || c == '\x0c'
    || c == '\u0085' || c == ' '

/-- The cutset `"'` of the `strings.Trim(value, "\"'")` call in `parseEnvFile`. -/
def isQuoteChar (c : Char) : Bool :=
  c == '"' || c == '\''

/-- Drop characters satisfying `p` from both ends of a character list
(the semantics of Go `strings.TrimFunc` and of `strings.Trim` with a cutset). -/
def trimBoth (p : Char → Bool) (l : List Char) : List Char :=
  ((l.dropWhile p).reverse.dropWhile p).reverse

/-- Go `strings.TrimSpace`. -/
def goTrim (s : String) : String :=
  String.mk (trimBoth isSpaceChar s.toList)

/-- Go `strings.Trim(s, "\"'")` as used on env values in `parseEnvFile`. -/
def trimQuotes (s : String) : String :=
  String.mk (trimBoth isQuoteChar s.toList)

/-- Go `strings.SplitN(line, "=", 2)`: `some (before, after)` split at the
first `=`, `none` when the line has no `=` (the `len(parts) == 2` test). -/
def splitFirstEq (line : String) : Option (String × String) :=
  if line.toList.contains '=' then
    some (String.mk (line.toList.takeWhile (fun c => !(c == '='))),
          String.mk ((line.toList.dropWhile (fun c => !(c == '='))).drop 1))
  else none

/-! ### Environment Resolver: `parseEnvFile` (checker.go lines 312-341) -/

/-- The association-list model of a Go `map[string]string`. -/
abbrev EnvMap := List (String × String)

/-- Go map assignment `result[key] = value`: update the existing binding in
place, or append a new one. Keeps keys distinct. -/
def envInsert (m : EnvMap) (k v : String) : EnvMap :=
  if m.any (fun p => p.1 == k) then
    m.map (fun p => if p.1 == k then (k, v) else p)
  else m ++ [(k, v)]

/-- Go map read `m[key]` (returning `none` for an absent key). -/
def envLookup (m : EnvMap) (k : String) : Option String :=
  (m.find? (fun p => p.1 == k)).map (fun p => p.2)

/-- The key set of an environment map. -/
def envKeys (m : EnvMap) : List String := m.map (fun p => p.1)

/-- The skip test of the `parseEnvFile` loop:
`line == "" || strings.HasPrefix(line, "#")`. -/
def skipLine (line : String) : Bool :=
  line == "" || line.toList.head? == some '#'

/-- One iteration of the scanner loop of `parseEnvFile`: trim the line, skip
comments and blanks, split on the first `=`, trim key and value, strip quote
characters from the value, and assign into the map. -/
def parseEnvLineStep (result : EnvMap) (raw : String) : EnvMap :=
  if skipLine (goTrim raw) then result
  else
    match splitFirstEq (goTrim raw) with
    | none => result
    | some kv => envInsert result (goTrim kv.1) (trimQuotes (goTrim kv.2))

/-- The scanner loop of `parseEnvFile` over all lines of the file. -/
def parseEnvLines (lines : List String) : EnvMap :=
  lines.foldl parseEnvLineStep []

/-- `checker.parseEnvFile`: a missing or unreadable file yields the empty
map, otherwise the lines are folded through `parseEnvLineStep`. -/
def parseEnvFile : Option (List String) → EnvMap
  | none => []
  | some lines => parseEnvLines lines

/-! ### Reference definition of the Environment Resolver (spec section 4.1)

The spec-side definition follows the words of the specification: it
processes each line independently and makes the *last* occurrence of a key
win, with a pluggable quote-stripping step so that the spec's
"one layer of matching quotes" and the code's `strings.Trim` behaviour can
be compared. -/

/-- Spec-side parse of a single line (same line discipline as the code, with
the quote-stripping step a parameter). -/
def specParseLine (stripQ : String → String) (raw : String) : Option (String × String) :=
  if skipLine (goTrim raw) then none
  else
    match splitFirstEq (goTrim raw) with
    | none => none
    | some kv => some (goTrim kv.1, stripQ (goTrim kv.2))

/-- Spec quote handling as the claim states it: strip exactly one layer
of quotes, and only when the value starts and ends with the same quote
character. -/
def stripOneMatchingQuote (s : String) : String :=
  match s.toList with
  | [] => s
  | c :: rest =>
    if isQuoteChar c && rest.getLast? == some c then String.mk rest.dropLast else s

/-- Spec-side lookup in the reference Environment Resolver: the value of the
last line that defines `key`, `none` for a missing file. -/
def specEnvLookup (stripQ : String → String) (content : Option (List String))
    (key : String) : Option String :=
  match content with
  | none => none
  | some lines =>
    match (lines.filterMap (specParseLine stripQ)).reverse.find? (fun p => p.1 == key) with
    | some p => some p.2
    | none => none

/-! ### Version Comparator: `tools.go` lines 155-197 -/

/-- The trim predicate of `parseVersion`: `r < '0' || r > '9'`
(Go `strings.TrimFunc` trims from both ends). -/
def nonDigit (c : Char) : Bool := !c.isDigit

/-- Go `strings.Split` on a single-character separator. -/
def splitOnChar (c : Char) : List Char → List (List Char)
  | [] => [[]]
  | x :: xs =>
    if x == c then [] :: splitOnChar c xs
    else
      match splitOnChar c xs with
      | [] => [[x]]
      | g :: gs => (x :: g) :: gs

/-- Decimal value of a digit string. -/
def digitsToNat (l : List Char) : Nat :=
  l.foldl (fun n c => n * 10 + (c.toNat - 48)) 0

/-- Go `strconv.Atoi` on the trimmed segment, with the error discarded
(`n, _ := strconv.Atoi(numStr)`), so a failed parse contributes `0`.  After
`TrimFunc` any leading sign has been trimmed away, so `Atoi` succeeds
exactly on nonempty all-digit segments. -/
def atoiOrZero (s : List Char) : Nat :=
  if !s.isEmpty && s.all Char.isDigit then digitsToNat s else 0

/-- `tools.parseVersion`: strip a leading `v`, split on `.`, trim non-digit
characters from both ends of each segment and parse it. -/
def parseVersion (v : String) : List Nat :=
  let chars := match v.toList with
    | 'v' :: rest => rest
    | l => l
  (splitOnChar '.' chars).map (fun p => atoiOrZero (trimBoth nonDigit p))

/-- The `for i := 0; i < 3; i++` loop of `tools.CompareVersions`, iterating
over the explicit index list `[0, 1, 2]`; an index beyond a version's
segment list reads as `0`. -/
def compareLoop (p1 p2 : List Nat) : List Nat → Int
  | [] => 0
  | i :: rest =>
    if p1.getD i 0 < p2.getD i 0 then -1
    else if p2.getD i 0 < p1.getD i 0 then 1
    else compareLoop p1 p2 rest

/-- `tools.CompareVersions`. -/
def CompareVersions (v1 v2 : String) : Int :=
  compareLoop (parseVersion v1) (parseVersion v2) [0, 1, 2]

/-- Spec-side description of the comparator result (spec section 4.9): the
sign of the first of the three segments that differs, `0` when all three
agree; an absent segment reads as `0`. -/
def signOfSegments (p1 p2 : List Nat) : Int :=
  if ¬ p1.getD 0 0 = p2.getD 0 0 then
    if p1.getD 0 0 < p2.getD 0 0 then -1 else 1
  else if ¬ p1.getD 1 0 = p2.getD 1 0 then
    if p1.getD 1 0 < p2.getD 1 0 then -1 else 1
  else if ¬ p1.getD 2 0 = p2.getD 2 0 then
    if p1.getD 2 0 < p2.getD 2 0 then -1 else 1
  else 0

/-- Spec-side reference comparator. -/
def specCompareVersions (v1 v2 : String) : Int :=
  signOfSegments (parseVersion v1) (parseVersion v2)

/-! ### Compose Reference Scanner: `checkComposeEnvRefs` (checker.go lines 76-129) -/

/-- Characters allowed in the variable-name group of the compose reference
regex: the class complement of `}` and `:`. -/
def notNameEnd (c : Char) : Bool := !(c == '}') && !(c == ':')

/-- One match attempt of the Go regex
`\$\x7b([^\x7d:]+)(?::-[^\x7d]*)?\x7d` at the current position: after
a dollar and open brace, a nonempty run of name characters, then either the
closing brace or `:-` followed by any non-brace characters and the closing
brace.  Returns the captured name and the remaining input after the match. -/
def matchVarRef : List Char → Option (List Char × List Char)
  | '$' :: '{' :: rest =>
    if (rest.takeWhile notNameEnd).isEmpty then none
    else
      match rest.dropWhile notNameEnd with
      | '}' :: rest2 => some (rest.takeWhile notNameEnd, rest2)
      | ':' :: '-' :: rest2 =>
        (match rest2.dropWhile (fun c => !(c == '}')) with
         | '}' :: rest3 => some (rest.takeWhile notNameEnd, rest3)
         | _ => none)
      | _ => none
  | _ => none

/-- Successive non-overlapping leftmost matches, as
`FindAllStringSubmatch` produces them: try a match at every position,
resume after the end of each match.  The fuel argument (initially the
input length) only serves structural recursion; every step consumes at
least one character, so it never runs out early. -/
def scanVarRefsAux : Nat → List Char → List String
  | 0, _ => []
  | _ + 1, [] => []
  | fuel + 1, c :: cs =>
    match matchVarRef (c :: cs) with
    | some nr => String.mk nr.1 :: scanVarRefsAux fuel nr.2
    | none => scanVarRefsAux fuel cs

/-- All captured variable names of the compose reference regex in a line. -/
def scanVarRefs (l : List Char) : List String := scanVarRefsAux l.length l

/-- The fixed standard/shell variable set of `checker.isStandardVar`. -/
def standardVars : List String :=
  ["HOME", "USER", "PATH", "PWD", "SHELL", "TERM", "HOSTNAME", "UID", "GID"]

/-- `checker.isStandardVar`. -/
def isStandardVar (name : String) : Bool := standardVars.contains name

/-- Membership of a variable name in the union of the keys of every found
environment file (the `definedVars` map built at the top of
`checkComposeEnvRefs`, `checkSourceCodeEnvRefs`, `checkCustomRules`). -/
def isDefinedVar (envFiles : List FileArt) (v : String) : Bool :=
  envFiles.any (fun ef => ef.found && (parseEnvFile ef.content).any (fun p => p.1 == v))

/-- Title of an ENV001 finding. -/
def env001Title (varName : String) : String :=
  "$\x7b" ++ varName ++ "\x7d referenced but not defined"

/-- The ENV001 finding built for one undefined occurrence. -/
def env001Finding (varName composePath : String) (lineNum : Nat) : Finding :=
  { code := "ENV001", severity := .blocking,
    title := env001Title varName,
    details := "Variable $\x7b" ++ varName ++ "\x7d is used in " ++ composePath
      ++ " but is not defined in any .env file",
    files := [{ file := composePath, line := lineNum }],
    suggestedFix := "Add " ++ varName ++ "=<value> to .env file" }

/-- The 1-based line numbering of the compose scanner loop (`lineNum++`
before each line is processed). -/
def withLineNums : Nat → List String → List (Nat × String)
  | _, [] => []
  | n, l :: ls => (n, l) :: withLineNums (n + 1) ls

/-- `checker.checkComposeEnvRefs`: for every found, readable compose file,
scan each line for variable references and append one ENV001 finding for
every occurrence that is neither defined nor standard. -/
def checkComposeEnvRefs (envFiles : List FileArt) (composeFiles : List FileArt) :
    List Finding :=
  composeFiles.foldl (fun acc cf =>
    if !cf.found then acc
    else
      match cf.content with
      | none => acc
      | some lines =>
        (withLineNums 1 lines).foldl (fun acc2 ln =>
          (scanVarRefs ln.2.toList).foldl (fun acc3 varName =>
            if !(isDefinedVar envFiles varName) && !(isStandardVar varName) then
              acc3 ++ [env001Finding varName cf.path ln.1]
            else acc3) acc2) acc) []

/-- Spec-side occurrence list of one compose file: every textual occurrence
matched by the reference pattern, paired with its 1-based line number. -/
def composeFileOccurrences (cf : FileArt) : List (Nat × String) :=
  match cf.content with
  | none => []
  | some lines =>
    (withLineNums 1 lines).flatMap (fun ln =>
      (scanVarRefs ln.2.toList).map (fun v => (ln.1, v)))

/-! ### Source-Code Reference Scanner: `checkSourceCodeEnvRefs`
(checker.go lines 388-480) -/

/-- A file visited by the `filepath.Walk` in `checkSourceCodeEnvRefs`
after the fixed directory skipping: its path relative to the scan base
(`filepath.Rel`) and its content (`none` = read error, skipped). -/
structure SourceFile where
  path : String
  content : Option (List String)
deriving DecidableEq, Repr

/-- Go `filepath.Ext`: the suffix starting at the final dot of the final
path element, empty when that element has no dot. -/
def fileExt (path : String) : String :=
  if (path.toList.reverse.takeWhile (fun c => !(c == '/'))).contains '.' then
    String.mk ('.' ::
      ((path.toList.reverse.takeWhile (fun c => !(c == '/'))).takeWhile
        (fun c => !(c == '.'))).reverse)
  else ""

/-- The supported extension set of `checkSourceCodeEnvRefs`. -/
def sourceExtensions : List String :=
  [".go", ".js", ".ts", ".jsx", ".tsx", ".py", ".java", ".cs", ".rs"]

/-- Title of an SRC001 finding. -/
def src001Title (varName : String) : String :=
  "Environment variable \x27" ++ varName ++ "\x27 used in source but not defined"

/-- The SRC001 finding built for the first undefined occurrence of a name. -/
def src001Finding (varName relPath : String) (lineNum : Nat) : Finding :=
  { code := "SRC001", severity := .warning,
    title := src001Title varName,
    details := "Variable " ++ varName
      ++ " is accessed in source code but not found in any .env file",
    files := [{ file := relPath, line := lineNum }],
    suggestedFix := "Add " ++ varName ++ "=<value> to .env file" }

/-- The innermost step of `checkSourceCodeEnvRefs`: state is the
`foundUndefined` set together with the findings accumulated so far. -/
def srcScanStep (envFiles : List FileArt) (path : String) (lineNum : Nat)
    (st : List String × List Finding) (varName : String) : List String × List Finding :=
  if !(isDefinedVar envFiles varName) && !(isStandardVar varName)
      && !(st.1.contains varName) then
    (varName :: st.1, st.2 ++ [src001Finding varName path lineNum])
  else st

/-- `checker.checkSourceCodeEnvRefs`, parametrized by the per-line
variable-name extraction `extract` (the union of the seven per-ecosystem
regex patterns applied to one line, in table order); the claims proved
about it hold for every extraction function. -/
def checkSourceCodeEnvRefs (extract : String → List String) (envFiles : List FileArt)
    (files : List SourceFile) : List Finding :=
  (files.foldl (fun st file =>
    if !(sourceExtensions.contains (fileExt file.path)) then st
    else
      match file.content with
      | none => st
      | some lines =>
        (withLineNums 1 lines).foldl (fun st2 ln =>
          (extract ln.2).foldl
            (fun st3 varName => srcScanStep envFiles file.path ln.1 st3 varName)
            st2) st) (([], []) : List String × List Finding)).2

/-- Spec-side occurrence list of the source scan: every name extracted from
a supported, readable file, with its file and 1-based line. -/
def srcOccurrences (extract : String → List String) (files : List SourceFile) :
    List (String × Nat × String) :=
  files.flatMap (fun file =>
    if sourceExtensions.contains (fileExt file.path) then
      match file.content with
      | none => []
      | some lines =>
        (withLineNums 1 lines).flatMap (fun ln =>
          (extract ln.2).map (fun v => (file.path, ln.1, v)))
    else [])

/-- A name is reportable when it is neither defined nor standard. -/
def srcUndefined (envFiles : List FileArt) (v : String) : Bool :=
  !(isDefinedVar envFiles v) && !(isStandardVar v)

/-- Spec-side global per-name deduplication: keep only the first occurrence
of each variable name not already seen. -/
def dedupByName (seen : List String) :
    List (String × Nat × String) → List (String × Nat × String)
  | [] => []
  | occ :: rest =>
    if seen.contains occ.2.2 then dedupByName seen rest
    else occ :: dedupByName (occ.2.2 :: seen) rest

/-! ### Env-Example Diff: `checkEnvExample` (checker.go lines 132-192) -/

/-- `models.Artifacts.HasEnv`. -/
def hasEnv (envFiles : List FileArt) : Bool := envFiles.any (fun e => e.found)

/-- `models.Artifacts.HasEnvExample`. -/
def hasEnvExample (examples : List FileArt) : Bool := examples.any (fun e => e.found)

/-- The primary-file selection loop of the ENV002 block:
`e.Found && (e.Path == ".env" || e.Path == ".env.local")`. -/
def isPrimaryEnv (e : FileArt) : Bool :=
  e.found && (e.path == ".env" || e.path == ".env.local")

/-- The ENV003 finding. -/
def env003Finding (examplePath : String) : Finding :=
  { code := "ENV003", severity := .warning,
    title := ".env.example exists but .env is missing",
    details := examplePath ++ " exists but no .env file found",
    files := [{ file := examplePath, line := 0 }],
    suggestedFix := "Copy .env.example to .env and fill in values" }

/-- The ENV002 finding for one key present in the example and absent from
the primary file. -/
def env002Finding (examplePath envPath key : String) : Finding :=
  { code := "ENV002", severity := .warning,
    title := examplePath ++ " has " ++ key ++ " but " ++ envPath ++ " does not",
    details := "Variable " ++ key ++ " is defined in " ++ examplePath
      ++ " but missing from " ++ envPath,
    files := [],
    suggestedFix := "Add " ++ key ++ "=<value> to " ++ envPath }

/-- `checker.checkEnvExample`: the ENV003 block (example present, no env
file), followed by the ENV002 key-diff block (first found example against
the first found `.env`/`.env.local`; the Go nil-map guard corresponds to
both `find?` calls succeeding). -/
def checkEnvExample (envFiles examples : List FileArt) : List Finding :=
  (if hasEnvExample examples && !(hasEnv envFiles) then
    [env003Finding (((examples.find? (fun e => e.found)).map (fun e => e.path)).getD "")]
  else [])
  ++
  (if hasEnvExample examples && hasEnv envFiles then
    match examples.find? (fun e => e.found), envFiles.find? isPrimaryEnv with
    | some ex, some en =>
      (envKeys (parseEnvFile ex.content)).flatMap (fun key =>
        if (parseEnvFile en.content).any (fun p => p.1 == key) then []
        else [env002Finding ex.path en.path key])
    | _, _ => []
  else [])

/-! ### Dependency Graph Validator: `checkComposeDependsOn`
(checker.go lines 195-242) and `extractDependsOn` (lines 344-369) -/

/-- The fragment of `yaml.Node` that `extractDependsOn` inspects: the node
kind, the scalar `Value`, and the `Content` children (for a mapping node the
content alternates keys and values, as in go-yaml). `absent` is a node with
`Kind == 0` (field not present); `other` stands for the remaining kinds
(document and alias nodes). -/
inductive YamlNode where
  | absent
  | scalar (value : String)
  | sequence (content : List YamlNode)
  | mapping (content : List YamlNode)
  | other

/-- `yaml.Node.Value`: empty for every non-scalar node. -/
def yamlValue : YamlNode → String
  | .scalar v => v
  | _ => ""

/-- The elements at even positions (`for i := 0; i < len; i += 2`). -/
def evenEntries {α : Type} : List α → List α
  | [] => []
  | [x] => [x]
  | x :: _ :: rest => x :: evenEntries rest

/-- `checker.extractDependsOn`: list form takes the scalar items' values,
mapping form takes the keys' values, anything else contributes nothing. -/
def extractDependsOn : YamlNode → List String
  | .sequence content =>
    content.filterMap (fun n =>
      match n with
      | .scalar v => some v
      | _ => none)
  | .mapping content => (evenEntries content).map yamlValue
  | _ => []

/-- One parsed service entry of the `services` mapping: its name and its
`depends_on` node. -/
structure ComposeService where
  name : String
  dependsOn : YamlNode

/-- A compose manifest as `checkComposeDependsOn` sees it: `services =
none` models a file whose read or `yaml.Unmarshal` failed (skipped). -/
structure ComposeManifest where
  path : String
  found : Bool
  services : Option (List ComposeService)

/-- The CMP001 finding for one unresolved dependency reference: located at
the manifest file with line `0` (no line number). -/
def cmp001Finding (svcName dep composePath : String) : Finding :=
  { code := "CMP001", severity := .blocking,
    title := "Service " ++ svcName ++ " depends on unknown service " ++ dep,
    details := "depends_on references " ++ dep ++ " which is not defined in " ++ composePath,
    files := [{ file := composePath, line := 0 }],
    suggestedFix := "Add service " ++ dep ++ " to " ++ composePath
      ++ " or remove from depends_on" }

/-- `checker.checkComposeDependsOn`. -/
def checkComposeDependsOn (manifests : List ComposeManifest) : List Finding :=
  manifests.foldl (fun acc m =>
    if !m.found then acc
    else
      match m.services with
      | none => acc
      | some services =>
        services.foldl (fun acc2 svc =>
          (extractDependsOn svc.dependsOn).foldl (fun acc3 dep =>
            if !((services.map (fun s => s.name)).contains dep) then
              acc3 ++ [cmp001Finding svc.name dep m.path]
            else acc3) acc2) acc) []

/-- The list form of `depends_on`: a sequence of scalar service names. -/
def dependsOnList (names : List String) : YamlNode :=
  .sequence (names.map (fun n => .scalar n))

/-- The mapping form of `depends_on`: keys are service names, values are
arbitrary nodes (e.g. health-check conditions), ignored. -/
def dependsOnMapping (pairs : List (String × YamlNode)) : YamlNode :=
  .mapping (pairs.flatMap (fun p => [.scalar p.1, p.2]))

/-! ### Profiles and filters: `profiles.go`, `checker.filterIgnoredFindings`
(checker.go lines 695-707), and the `scan.go` pipeline -/

/-- `config.CustomRule`. -/
structure CustomRule where
  id : String
  pattern : String
  required : Bool
  description : String
  severity : String
deriving DecidableEq, Repr

/-- The fields of `config.Config` consulted by the embedded checks
(`ToolVersions`, `IgnorePatterns` and `BuildContexts` are never read by
them). -/
structure Config where
  customRules : List CustomRule
  ignoreCodes : List String
  requiredEnvVars : List String
deriving DecidableEq, Repr

/-- `profiles.Profile`. -/
structure Profile where
  name : String
  description : String
  minSeverity : Severity
  enabledChecks : List String
  disabledChecks : List String
  enableSourceScanning : Bool
  includeInfo : Bool
deriving DecidableEq, Repr

/-- The `default` entry of `profiles.BuiltinProfiles`. -/
def defaultProfile : Profile :=
  ⟨"default", "Standard development checks", .info, [], [], false, true⟩

/-- The `strict` entry of `profiles.BuiltinProfiles`. -/
def strictProfile : Profile :=
  ⟨"strict", "Strict mode - all checks enabled, fail on any issue", .info, [], [], true, true⟩

/-- The `ci` entry of `profiles.BuiltinProfiles`. -/
def ciProfile : Profile :=
  ⟨"ci", "CI mode - blocking and warnings only, no info", .warning, [], [], false, false⟩

/-- The `minimal` entry of `profiles.BuiltinProfiles`. -/
def minimalProfile : Profile :=
  ⟨"minimal", "Minimal mode - only blocking issues", .blocking, [], [], false, false⟩

/-- The `full` entry of `profiles.BuiltinProfiles`. -/
def fullProfile : Profile :=
  ⟨"full", "Full analysis including source code scanning", .info, [], [], true, true⟩

/-- `Profile.FilterFindings` (profiles.go lines 76-102): severity floor,
info gating, allow-list, deny-list, applied per finding in order. -/
def FilterFindings (p : Profile) (findings : List Finding) : List Finding :=
  findings.foldl (fun acc f =>
    if decide (SeverityLevel f.severity < SeverityLevel p.minSeverity) then acc
    else if (f.severity == Severity.info) && !p.includeInfo then acc
    else if !p.enabledChecks.isEmpty && !(p.enabledChecks.contains f.code) then acc
    else if p.disabledChecks.contains f.code then acc
    else acc ++ [f]) []

/-- `Config.ShouldIgnoreCode`. -/
def ShouldIgnoreCode (cfg : Config) (code : String) : Bool :=
  cfg.ignoreCodes.contains code

/-- `checker.filterIgnoredFindings`. -/
def filterIgnoredFindings (findings : List Finding) (cfg : Config) : List Finding :=
  if cfg.ignoreCodes.isEmpty then findings
  else
    findings.foldl (fun acc f =>
      if !(ShouldIgnoreCode cfg f.code) then acc ++ [f] else acc) []

/-- The post-processing pipeline as `CheckWithOptions` and `runScan` compose
it: the ignore-code filter runs at the end of `CheckWithOptions`, then the
profile filter runs on its result in `scan.go`. -/
def applyFilters (cfg : Config) (p : Profile) (findings : List Finding) : List Finding :=
  FilterFindings p (filterIgnoredFindings findings cfg)

/-- Spec-side single-pass description of the combined filter semantics. -/
def profileKeep (cfg : Config) (p : Profile) (f : Finding) : Bool :=
  !(ShouldIgnoreCode cfg f.code)
  && !(decide (SeverityLevel f.severity < SeverityLevel p.minSeverity))
  && !((f.severity == Severity.info) && !p.includeInfo)
  && (p.enabledChecks.isEmpty || p.enabledChecks.contains f.code)
  && !(p.disabledChecks.contains f.code)

/-- The 1 blocking + 2 warning + 3 info raw finding list of the profile
filtering example. -/
def sampleFindings : List Finding :=
  [NewFinding "CMP001" .blocking "b1",
   NewFinding "ENV002" .warning "w1",
   NewFinding "SRC001" .warning "w2",
   NewFinding "LANG001" .info "i1",
   NewFinding "HINT001" .info "i2",
   NewFinding "LANG001" .info "i3"]

/-- A configuration with no custom rules, no ignored codes and no required
variables (`config.DefaultConfig`). -/
def emptyConfig : Config := ⟨[], [], []⟩

/-! ### Custom Rule Engine: `checkCustomRules` (checker.go lines 604-659) -/

/-- The severity mapping of `checkCustomRules`: `blocking` and `info` are
recognized, everything else (including the empty string) falls back to the
initial `warning`. -/
def parseSeverity (s : String) : Severity :=
  if s == "blocking" then .blocking
  else if s == "info" then .info
  else .warning

/-- The `CUSTOM-<id>` finding emitted for an unsatisfied required rule. -/
def customRuleFinding (rule : CustomRule) : Finding :=
  { code := "CUSTOM-" ++ rule.id,
    severity := parseSeverity rule.severity,
    title := "Custom rule \x27" ++ rule.id ++ "\x27 not satisfied",
    details := rule.description,
    files := [],
    suggestedFix := "Define a variable matching pattern: " ++ rule.pattern }

/-- The union of the defined variable names across every found environment
file (the `definedVars` map of `checkCustomRules`; duplicates are harmless
because only existential matching is performed on it). -/
def definedVarsList (envFiles : List FileArt) : List String :=
  envFiles.foldl (fun acc ef =>
    if ef.found then acc ++ envKeys (parseEnvFile ef.content) else acc) []

/-- `checker.checkCustomRules`, parametrized by `compile`, the embedding of
`regexp.Compile`: `none` models a pattern that fails to compile, `some
matcher` the compiled regex's `MatchString`.  The theorems hold for every
such function. -/
def checkCustomRules (compile : String → Option (String → Bool))
    (envFiles : List FileArt) (cfg : Config) : List Finding :=
  if cfg.customRules.isEmpty then []
  else
    cfg.customRules.foldl (fun acc rule =>
      if !rule.required then acc
      else
        match compile rule.pattern with
        | none => acc
        | some matcher =>
          if (definedVarsList envFiles).any matcher then acc
          else acc ++ [customRuleFinding rule]) []

/-! ### Lemmas about the environment map -/

theorem find?_append_cases {α : Type} (p : α → Bool) (l₁ l₂ : List α) :
    (l₁ ++ l₂).find? p =
      match l₁.find? p with
      | some a => some a
      | none => l₂.find? p := by
  induction l₁ with
  | nil => simp
  | cons a l ih =>
    rw [List.cons_append, List.find?_cons, List.find?_cons]
    cases hpa : p a
    · simpa using ih
    · simp

theorem find?_map_update_same (m : EnvMap) (k v : String) :
    (m.map (fun p => if p.1 == k then (k, v) else p)).find? (fun p => p.1 == k)
      = (m.find? (fun p => p.1 == k)).map (fun _ => (k, v)) := by
  induction m with
  | nil => rfl
  | cons p ps ih =>
    rw [List.map_cons, List.find?_cons, List.find?_cons]
    by_cases h : p.1 = k
    · have hb : (p.1 == k) = true := by simpa using h
      simp [hb]
    · have hb : (p.1 == k) = false := by simpa using h
      simpa [hb] using ih

theorem find?_map_update_other (m : EnvMap) (k v key : String) (h : ¬ key = k) :
    (m.map (fun p => if p.1 == k then (k, v) else p)).find? (fun p => p.1 == key)
      = m.find? (fun p => p.1 == key) := by
  induction m with
  | nil => rfl
  | cons p ps ih =>
    rw [List.map_cons, List.find?_cons, List.find?_cons]
    by_cases hpk : p.1 = k
    · have hb : (p.1 == k) = true := by simpa using hpk
      have hk1 : (k == key) = false := by
        simpa using fun hc => h hc.symm
      have hk2 : (p.1 == key) = false := by
        simpa [hpk] using fun hc => h hc.symm
      simpa [hb, hk1, hk2] using ih
    · have hb : (p.1 == k) = false := by simpa using hpk
      cases hmatch : (p.1 == key)
      · simpa [hb, hmatch] using ih
      · simp [hb, hmatch]

theorem envLookup_envInsert (m : EnvMap) (k v key : String) :
    envLookup (envInsert m k v) key = if key = k then some v else envLookup m key := by
  unfold envInsert envLookup
  cases hmem : m.any (fun p => p.1 == k) with
  | true =>
    simp only [hmem, if_true]
    by_cases hkey : key = k
    · subst hkey
      rw [find?_map_update_same]
      rcases hfind : m.find? (fun p => p.1 == key) with _ | p
      · rw [List.find?_eq_none] at hfind
        rw [List.any_eq_true] at hmem
        obtain ⟨x, hx, hxk⟩ := hmem
        exact absurd hxk (hfind x hx)
      · simp [hfind]
    · rw [find?_map_update_other m k v key hkey]
      simp [hkey]
  | false =>
    have hnone : m.find? (fun p => p.1 == k) = none := by
      rw [List.find?_eq_none]
      intro x hx hxk
      have : m.any (fun p => p.1 == k) = true := List.any_eq_true.mpr ⟨x, hx, hxk⟩
      rw [hmem] at this
      exact absurd this (by simp)
    simp only [hmem, Bool.false_eq_true, if_false]
    rw [find?_append_cases]
    by_cases hkey : key = k
    · subst hkey
      rw [hnone]
      simp [List.find?_cons]
    · have hkv : (k == key) = false := by simpa using fun hc => hkey hc.symm
      rcases hfind : m.find? (fun p => p.1 == key) with _ | q
      · rw [hfind]
        simp [List.find?_cons, hkv, hkey]
      · rw [hfind]
        simp [hkey]

theorem parseEnvLineStep_eq (m : EnvMap) (raw : String) :
    parseEnvLineStep m raw =
      match specParseLine trimQuotes raw with
      | none => m
      | some kv => envInsert m kv.1 kv.2 := by
  unfold parseEnvLineStep specParseLine
  cases hskip : skipLine (goTrim raw)
  · rcases hsplit : splitFirstEq (goTrim raw) with _ | kv <;>
      simp [hskip, hsplit]
  · simp [hskip]

theorem envLookup_foldl_lines (lines : List String) (m : EnvMap) (key : String) :
    envLookup (lines.foldl parseEnvLineStep m) key =
      match (lines.filterMap (specParseLine trimQuotes)).reverse.find? (fun p => p.1 == key) with
      | some p => some p.2
      | none => envLookup m key := by
  induction lines generalizing m with
  | nil => simp
  | cons raw rest ih =>
    simp only [List.foldl_cons, List.filterMap_cons]
    rcases hline : specParseLine trimQuotes raw with _ | kv
    · rw [show parseEnvLineStep m raw = m by rw [parseEnvLineStep_eq, hline]]
      exact ih m
    · rw [show parseEnvLineStep m raw = envInsert m kv.1 kv.2 by
        rw [parseEnvLineStep_eq, hline]]
      rw [ih (envInsert m kv.1 kv.2)]
      simp only [List.reverse_cons]
      rw [find?_append_cases]
      rcases hf : (rest.filterMap (specParseLine trimQuotes)).reverse.find?
          (fun p => p.1 == key) with _ | p
      · rw [hf, envLookup_envInsert]
        by_cases hkk : key = kv.1
        · have hb : (kv.1 == key) = true := by simpa using hkk.symm
          simp [List.find?_cons, hb, hkk]
        · have hb : (kv.1 == key) = false := by simpa using fun hc => hkk hc.symm
          simp [List.find?_cons, hb, hkk]
      · rw [hf]

/-! ### Claim C1 -/

/-- C1 counterexample: on the single line `KEY=''v''` the code's
`strings.Trim` strips every leading and trailing quote character, yielding
`v`, while the claimed reference definition strips exactly one layer of
matching quotes, yielding `'v'`.  The claimed equality between
`parseEnvFile` and the reference Environment Resolver is therefore false at
this input. -/
theorem C1_parseEnvFile_counterexample :
    ¬ (envLookup (parseEnvFile (some ["KEY=\x27\x27v\x27\x27"])) "KEY" =
        specEnvLookup stripOneMatchingQuote (some ["KEY=\x27\x27v\x27\x27"]) "KEY") := by
  decide

/-- C1 (amended): `parseEnvFile` agrees with the reference Environment
Resolver once the quote-stripping step is amended to what `strings.Trim`
does: it strips all leading and all trailing quote characters, single or
double in any combination, not one layer of matching quotes.  Everything
else in the claim is confirmed: line-by-line reading, skipping of blank
lines and `#` comments after trimming, split on the first `=`, whitespace
trimming of key and value, lines without `=` ignored, last occurrence of a
duplicated key winning, and a missing or unreadable file yielding the empty
map. -/
theorem C1_parseEnvFile_amended (content : Option (List String)) (key : String) :
    envLookup (parseEnvFile content) key = specEnvLookup trimQuotes content key := by
  cases content with
  | none => rfl
  | some lines =>
    show envLookup (lines.foldl parseEnvLineStep []) key = _
    rw [envLookup_foldl_lines]
    unfold specEnvLookup
    rcases hf : (lines.filterMap (specParseLine trimQuotes)).reverse.find?
        (fun p => p.1 == key) with _ | p <;> rfl

/-! ### Claim C2 -/

/-- C2: `CompareVersions` compares up to three dot-separated integer
segments left to right, trims non-digit characters from the ends of each
segment before parsing, treats an absent segment as `0`, and returns the
sign of the first differing segment (`0` when all three agree); in
particular `CompareVersions "20.10.0" "20.9.9" > 0`,
`CompareVersions "18.0.0" "18.0.0" == 0`, and
`CompareVersions "1.2" "1.2.0" == 0`. -/
theorem C2_CompareVersions_spec :
    (∀ v1 v2 : String, CompareVersions v1 v2 = specCompareVersions v1 v2) ∧
    0 < CompareVersions "20.10.0" "20.9.9" ∧
    CompareVersions "18.0.0" "18.0.0" = 0 ∧
    CompareVersions "1.2" "1.2.0" = 0 := by
  refine ⟨?_, by decide, by decide, by decide⟩
  intro v1 v2
  unfold CompareVersions specCompareVersions
  generalize parseVersion v1 = p1
  generalize parseVersion v2 = p2
  simp only [compareLoop, signOfSegments]
  split_ifs <;> omega

/-! ### General fold shape lemma -/

theorem foldl_append_form {α β : Type} (f : List β → α → List β) (g : α → List β)
    (h : ∀ acc x, f acc x = acc ++ g x) (l : List α) (init : List β) :
    l.foldl f init = init ++ l.flatMap g := by
  induction l generalizing init with
  | nil => simp
  | cons x xs ih =>
    rw [List.foldl_cons, h, ih, List.flatMap_cons, List.append_assoc]

/-! ### Claim C3 -/

theorem checkComposeEnvRefs_inner3 (envFiles : List FileArt) (path : String)
    (lineNum : Nat) (vars : List String) (acc : List Finding) :
    vars.foldl (fun acc3 varName =>
        if !(isDefinedVar envFiles varName) && !(isStandardVar varName) then
          acc3 ++ [env001Finding varName path lineNum]
        else acc3) acc
      = acc ++ vars.flatMap (fun varName =>
          if !(isDefinedVar envFiles varName) && !(isStandardVar varName) then
            [env001Finding varName path lineNum]
          else []) := by
  apply foldl_append_form
  intro acc3 v
  by_cases hc : (!(isDefinedVar envFiles v) && !(isStandardVar v)) = true
  · simp [hc]
  · simp [hc]

theorem checkComposeEnvRefs_inner2 (envFiles : List FileArt) (path : String)
    (lns : List (Nat × String)) (acc : List Finding) :
    lns.foldl (fun acc2 ln =>
        (scanVarRefs ln.2.toList).foldl (fun acc3 varName =>
          if !(isDefinedVar envFiles varName) && !(isStandardVar varName) then
            acc3 ++ [env001Finding varName path ln.1]
          else acc3) acc2) acc
      = acc ++ lns.flatMap (fun ln =>
          (scanVarRefs ln.2.toList).flatMap (fun varName =>
            if !(isDefinedVar envFiles varName) && !(isStandardVar varName) then
              [env001Finding varName path ln.1]
            else [])) := by
  apply foldl_append_form
  intro acc2 ln
  exact checkComposeEnvRefs_inner3 envFiles path ln.1 _ acc2

theorem checkComposeEnvRefs_spec (envFiles composeFiles : List FileArt) :
    checkComposeEnvRefs envFiles composeFiles =
      composeFiles.flatMap (fun cf =>
        if cf.found then
          (composeFileOccurrences cf).flatMap (fun occ =>
            if !(isDefinedVar envFiles occ.2) && !(isStandardVar occ.2) then
              [env001Finding occ.2 cf.path occ.1]
            else [])
        else []) := by
  unfold checkComposeEnvRefs
  have main := foldl_append_form
    (fun acc cf =>
      if !cf.found then acc
      else
        match cf.content with
        | none => acc
        | some lines =>
          (withLineNums 1 lines).foldl (fun acc2 ln =>
            (scanVarRefs ln.2.toList).foldl (fun acc3 varName =>
              if !(isDefinedVar envFiles varName) && !(isStandardVar varName) then
                acc3 ++ [env001Finding varName cf.path ln.1]
              else acc3) acc2) acc)
    (fun cf =>
      if cf.found then
        (composeFileOccurrences cf).flatMap (fun occ =>
          if !(isDefinedVar envFiles occ.2) && !(isStandardVar occ.2) then
            [env001Finding occ.2 cf.path occ.1]
          else [])
      else [])
    ?_ composeFiles []
  · simpa using main
  · intro acc cf
    cases hfound : cf.found
    · simp [hfound]
    · cases hcontent : cf.content with
      | none => simp [hfound, hcontent, composeFileOccurrences]
      | some lines =>
        simp only [hfound, hcontent, Bool.not_true, Bool.false_eq_true, if_false,
          if_true, composeFileOccurrences]
        rw [checkComposeEnvRefs_inner2, List.flatMap_assoc]
        congr 1
        apply List.flatMap_congr  -- pointwise equality of the flatMap bodies
        intro ln _
        rw [List.flatMap_map]

/-- C3: for every found compose file and every occurrence of a
`$\x7bVAR\x7d` or `$\x7bVAR:-default\x7d` reference whose name is neither
defined in any found environment file nor standard, `checkComposeEnvRefs`
emits exactly one blocking ENV001 finding carrying that occurrence's file
and line number, one finding per occurrence with no deduplication. -/
theorem C3_composeEnvRefs_per_occurrence (envFiles composeFiles : List FileArt) :
    checkComposeEnvRefs envFiles composeFiles =
      composeFiles.flatMap (fun cf =>
        if cf.found then
          (composeFileOccurrences cf).flatMap (fun occ =>
            if !(isDefinedVar envFiles occ.2) && !(isStandardVar occ.2) then
              [env001Finding occ.2 cf.path occ.1]
            else [])
        else []) :=
  checkComposeEnvRefs_spec envFiles composeFiles

/-! ### Claim C4 -/

theorem foldl_flatMap_fold {α β γ : Type} (l : List α) (f : α → List β)
    (g : γ → β → γ) (init : γ) :
    (l.flatMap f).foldl g init = l.foldl (fun acc x => (f x).foldl g acc) init := by
  induction l generalizing init with
  | nil => simp
  | cons x xs ih => rw [List.flatMap_cons, List.foldl_append, List.foldl_cons, ih]

theorem checkSourceCodeEnvRefs_flatten (extract : String → List String)
    (envFiles : List FileArt) (files : List SourceFile)
    (st : List String × List Finding) :
    files.foldl (fun st file =>
      if !(sourceExtensions.contains (fileExt file.path)) then st
      else
        match file.content with
        | none => st
        | some lines =>
          (withLineNums 1 lines).foldl (fun st2 ln =>
            (extract ln.2).foldl
              (fun st3 varName => srcScanStep envFiles file.path ln.1 st3 varName)
              st2) st) st
    = (srcOccurrences extract files).foldl
        (fun st occ => srcScanStep envFiles occ.1 occ.2.1 st occ.2.2) st := by
  unfold srcOccurrences
  rw [foldl_flatMap_fold]
  have hFG : (fun (st : List String × List Finding) (file : SourceFile) =>
      if !(sourceExtensions.contains (fileExt file.path)) then st
      else
        match file.content with
        | none => st
        | some lines =>
          (withLineNums 1 lines).foldl (fun st2 ln =>
            (extract ln.2).foldl
              (fun st3 varName => srcScanStep envFiles file.path ln.1 st3 varName)
              st2) st)
    = (fun (st : List String × List Finding) (file : SourceFile) =>
      (if sourceExtensions.contains (fileExt file.path) then
          match file.content with
          | none => []
          | some lines =>
            (withLineNums 1 lines).flatMap (fun ln =>
              (extract ln.2).map (fun v => (file.path, ln.1, v)))
        else []).foldl
        (fun st occ => srcScanStep envFiles occ.1 occ.2.1 st occ.2.2) st) := by
    funext st file
    cases hext : sourceExtensions.contains (fileExt file.path)
    · simp [hext]
    · cases hcontent : file.content with
      | none => simp [hext, hcontent]
      | some lines =>
        simp only [hext, hcontent, Bool.not_true, Bool.false_eq_true, if_false, if_true]
        rw [foldl_flatMap_fold]
        have hinner : (fun (st2 : List String × List Finding) (ln : Nat × String) =>
            (extract ln.2).foldl
              (fun st3 varName => srcScanStep envFiles file.path ln.1 st3 varName) st2)
          = (fun (st2 : List String × List Finding) (ln : Nat × String) =>
            ((extract ln.2).map (fun v => (file.path, ln.1, v))).foldl
              (fun st occ => srcScanStep envFiles occ.1 occ.2.1 st occ.2.2) st2) := by
          funext st2 ln
          rw [List.foldl_map]
        rw [hinner]
  rw [hFG]

theorem srcFold_dedup (envFiles : List FileArt) (occs : List (String × Nat × String)) :
    ∀ (seen : List String) (acc : List Finding),
    (occs.foldl (fun st occ => srcScanStep envFiles occ.1 occ.2.1 st occ.2.2) (seen, acc)).2
      = acc ++ (dedupByName seen (occs.filter (fun occ => srcUndefined envFiles occ.2.2))).map
          (fun occ => src001Finding occ.2.2 occ.1 occ.2.1) := by
  induction occs with
  | nil => intro seen acc; simp [dedupByName]
  | cons occ rest ih =>
    intro seen acc
    rw [List.foldl_cons, List.filter_cons]
    by_cases hcond : srcUndefined envFiles occ.2.2 = true
    · rw [if_pos hcond]
      by_cases hseen : seen.contains occ.2.2 = true
      · have hstep : srcScanStep envFiles occ.1 occ.2.1 (seen, acc) occ.2.2 = (seen, acc) := by
          unfold srcScanStep
          simp only [hseen, Bool.not_true, Bool.and_false, Bool.false_eq_true, if_false]
        rw [hstep, dedupByName, if_pos hseen]
        exact ih seen acc
      · have hseen' : seen.contains occ.2.2 = false := by simpa using hseen
        have hstep : srcScanStep envFiles occ.1 occ.2.1 (seen, acc) occ.2.2
            = (occ.2.2 :: seen, acc ++ [src001Finding occ.2.2 occ.1 occ.2.1]) := by
          unfold srcScanStep
          unfold srcUndefined at hcond
          simp only [hseen', Bool.not_false, Bool.and_true, hcond, if_true]
        rw [hstep, ih, dedupByName, if_neg (by simpa using hseen')]
        simp [List.append_assoc]
    · have hcond' : srcUndefined envFiles occ.2.2 = false := by simpa using hcond
      rw [if_neg (by simp [hcond'])]
      have hstep : srcScanStep envFiles occ.1 occ.2.1 (seen, acc) occ.2.2 = (seen, acc) := by
        unfold srcScanStep
        unfold srcUndefined at hcond'
        rcases Bool.and_eq_false_iff.mp hcond' with h | h
        · simp [h]
        · simp [h]
      rw [hstep]
      exact ih seen acc

theorem checkSourceCodeEnvRefs_spec (extract : String → List String)
    (envFiles : List FileArt) (files : List SourceFile) :
    checkSourceCodeEnvRefs extract envFiles files
      = (dedupByName []
          ((srcOccurrences extract files).filter
            (fun occ => srcUndefined envFiles occ.2.2))).map
          (fun occ => src001Finding occ.2.2 occ.1 occ.2.1) := by
  unfold checkSourceCodeEnvRefs
  rw [checkSourceCodeEnvRefs_flatten]
  rw [srcFold_dedup envFiles _ [] []]
  simp

/-- C4: when source scanning runs, `checkSourceCodeEnvRefs` emits exactly
one warning SRC001 finding per undefined, non-standard variable name
extracted from the supported-extension files, deduplicated globally by name
across the entire scan with the first occurrence winning; the statement
holds for every per-line extraction function. -/
theorem C4_sourceEnvRefs_global_dedup (extract : String → List String)
    (envFiles : List FileArt) (files : List SourceFile) :
    checkSourceCodeEnvRefs extract envFiles files
      = (dedupByName []
          ((srcOccurrences extract files).filter
            (fun occ => srcUndefined envFiles occ.2.2))).map
          (fun occ => src001Finding occ.2.2 occ.1 occ.2.1) :=
  checkSourceCodeEnvRefs_spec extract envFiles files

/-! ### Claim C5 -/

theorem string_data_inj {a b : String} (h : a.data = b.data) : a = b := by
  cases a
  cases b
  exact congrArg String.mk h

theorem append_affix_inj {pre suf v w : String}
    (h : pre ++ v ++ suf = pre ++ w ++ suf) : v = w := by
  have hd := congrArg String.data h
  simp only [String.data_append] at hd
  exact string_data_inj (List.append_cancel_left (List.append_cancel_right hd))

theorem env001Title_inj {v w : String} (h : env001Title v = env001Title w) : v = w := by
  unfold env001Title at h
  exact append_affix_inj h

theorem src001Title_inj {v w : String} (h : src001Title v = src001Title w) : v = w := by
  unfold src001Title at h
  exact append_affix_inj h

theorem mem_dedupByName {occ : String × Nat × String} :
    ∀ (l : List (String × Nat × String)) (seen : List String),
    occ ∈ dedupByName seen l → occ ∈ l := by
  intro l
  induction l with
  | nil =>
    intro seen h
    simp [dedupByName] at h
  | cons x rest ih =>
    intro seen h
    rw [dedupByName] at h
    by_cases hseen : seen.contains x.2.2 = true
    · rw [if_pos hseen] at h
      exact List.mem_cons_of_mem x (ih seen h)
    · rw [if_neg hseen] at h
      rcases List.mem_cons.mp h with h | h
      · exact h ▸ List.mem_cons_self x rest
      · exact List.mem_cons_of_mem x (ih _ h)

/-- C5: for every name in the fixed standard/shell set, neither the compose
reference scanner nor the source-code scanner ever produces an ENV001 or
SRC001 finding for that name, for any inputs whatsoever (defined or not,
referenced or not). -/
theorem C5_standard_vars_exempt (name : String) (h : name ∈ standardVars)
    (envFiles composeFiles : List FileArt) (extract : String → List String)
    (srcFiles : List SourceFile) :
    ((checkComposeEnvRefs envFiles composeFiles).all
        (fun f => !(f.title == env001Title name))) = true ∧
    ((checkSourceCodeEnvRefs extract envFiles srcFiles).all
        (fun f => !(f.title == src001Title name))) = true := by
  have hstd : isStandardVar name = true := by
    unfold isStandardVar
    simpa using h
  constructor
  · rw [checkComposeEnvRefs_spec, List.all_eq_true]
    intro f hf
    rw [List.mem_flatMap] at hf
    obtain ⟨cf, _, hf⟩ := hf
    rcases hfound : cf.found with _ | _
    · rw [hfound] at hf
      simp at hf
    · rw [hfound] at hf
      simp only [if_true] at hf
      rw [List.mem_flatMap] at hf
      obtain ⟨occ, _, hocc⟩ := hf
      by_cases hcond : (!(isDefinedVar envFiles occ.2) && !(isStandardVar occ.2)) = true
      · rw [if_pos hcond] at hocc
        rw [List.mem_singleton] at hocc
        subst hocc
        have hnotstd : isStandardVar occ.2 = false := by
          have hc := hcond
          rw [Bool.and_eq_true] at hc
          simpa using hc.2
        simp only [env001Finding, Bool.not_eq_true']
        rw [beq_eq_false_iff_ne]
        intro heq
        rw [env001Title_inj heq] at hnotstd
        rw [hstd] at hnotstd
        exact absurd hnotstd (by simp)
      · rw [if_neg hcond] at hocc
        simp at hocc
  · rw [checkSourceCodeEnvRefs_spec, List.all_eq_true]
    intro f hf
    rw [List.mem_map] at hf
    obtain ⟨occ, hmem, hocc⟩ := hf
    subst hocc
    have hfil := List.of_mem_filter (mem_dedupByName _ _ hmem)
    have hnotstd : isStandardVar occ.2.2 = false := by
      unfold srcUndefined at hfil
      rw [Bool.and_eq_true] at hfil
      simpa using hfil.2
    simp only [src001Finding, Bool.not_eq_true']
    rw [beq_eq_false_iff_ne]
    intro heq
    rw [src001Title_inj heq] at hnotstd
    rw [hstd] at hnotstd
    exact absurd hnotstd (by simp)

/-- C5 witness: instantiation at `HOME`, referenced in a compose file and
extracted from a source file, with no environment files present. -/
theorem C5_standard_vars_exempt_witness :
    ("HOME" ∈ standardVars) ∧
    (((checkComposeEnvRefs []
        [⟨"docker-compose.yml", true, some ["x: $\x7bHOME\x7d"]⟩]).all
        (fun f => !(f.title == env001Title "HOME"))) = true ∧
      ((checkSourceCodeEnvRefs (fun _ => ["HOME"]) []
        [⟨"main.go", some ["x"]⟩]).all
        (fun f => !(f.title == src001Title "HOME"))) = true) :=
  ⟨by decide,
    C5_standard_vars_exempt "HOME" (by decide)
      [] [⟨"docker-compose.yml", true, some ["x: $\x7bHOME\x7d"]⟩]
      (fun _ => ["HOME"]) [⟨"main.go", some ["x"]⟩]⟩

/-! ### Claims C6 and C10 -/

theorem envKeys_envInsert (m : EnvMap) (k v : String) :
    envKeys (envInsert m k v) =
      if m.any (fun p => p.1 == k) then envKeys m else envKeys m ++ [k] := by
  unfold envInsert envKeys
  cases hmem : m.any (fun p => p.1 == k)
  · simp
  · simp only [if_true, List.map_map]
    apply List.map_congr_left
    intro p _
    by_cases h : p.1 = k
    · simp [h]
    · simp [h]

theorem envKeys_mem_any (m : EnvMap) (k : String) :
    k ∈ envKeys m ↔ m.any (fun p => p.1 == k) = true := by
  unfold envKeys
  rw [List.mem_map, List.any_eq_true]
  constructor
  · rintro ⟨p, hp, hpk⟩
    exact ⟨p, hp, by simpa using hpk⟩
  · rintro ⟨p, hp, hpk⟩
    exact ⟨p, hp, by simpa using hpk⟩

theorem nodup_envKeys_insert (m : EnvMap) (k v : String) (h : (envKeys m).Nodup) :
    (envKeys (envInsert m k v)).Nodup := by
  rw [envKeys_envInsert]
  cases hmem : m.any (fun p => p.1 == k)
  · simp only [Bool.false_eq_true, if_false]
    have hk : k ∉ envKeys m := by
      intro hmemk
      rw [envKeys_mem_any] at hmemk
      rw [hmem] at hmemk
      exact absurd hmemk (by simp)
    simp [List.nodup_append, h, hk]
  · simpa using h

theorem nodup_envKeys_foldl (lines : List String) :
    ∀ m : EnvMap, (envKeys m).Nodup → (envKeys (lines.foldl parseEnvLineStep m)).Nodup := by
  induction lines with
  | nil =>
    intro m h
    simpa using h
  | cons raw rest ih =>
    intro m h
    rw [List.foldl_cons]
    apply ih
    rw [parseEnvLineStep_eq]
    cases hsp : specParseLine trimQuotes raw
    · simpa using h
    · exact nodup_envKeys_insert _ _ _ h

theorem nodup_envKeys_parseEnvFile (content : Option (List String)) :
    (envKeys (parseEnvFile content)).Nodup := by
  cases content
  · simp [parseEnvFile, envKeys]
  · exact nodup_envKeys_foldl _ [] (by simp [envKeys])

theorem env002Finding_key_inj {ex en k1 k2 : String}
    (h : env002Finding ex en k1 = env002Finding ex en k2) : k1 = k2 := by
  have ht := congrArg Finding.title h
  simp only [env002Finding] at ht
  have hd := congrArg String.data ht
  simp only [String.data_append, List.append_assoc] at hd
  exact string_data_inj
    (List.append_cancel_right (List.append_cancel_left (List.append_cancel_left hd)))

theorem count_env002_flatMap_not_mem (q : String → Bool) (ex en key : String) :
    ∀ (keys : List String), key ∉ keys →
    ((keys.flatMap (fun k => if q k then [] else [env002Finding ex en k])).count
      (env002Finding ex en key)) = 0 := by
  intro keys
  induction keys with
  | nil => intro; simp
  | cons k ks ih =>
    intro hk
    have hne : env002Finding ex en k ≠ env002Finding ex en key := by
      intro hc
      apply hk
      rw [← env002Finding_key_inj hc]
      exact List.mem_cons_self k ks
    have hrest := ih (fun hc => hk (List.mem_cons_of_mem _ hc))
    rw [List.flatMap_cons, List.count_append, hrest]
    cases hq : q k
    · simp [List.count_cons, hne]
    · simp

theorem count_env002_flatMap (q : String → Bool) (ex en key : String) :
    ∀ (keys : List String), keys.Nodup →
    ((keys.flatMap (fun k => if q k then [] else [env002Finding ex en k])).count
      (env002Finding ex en key))
      = if key ∈ keys ∧ q key = false then 1 else 0 := by
  intro keys
  induction keys with
  | nil => intro; simp
  | cons k ks ih =>
    intro hnd
    have hknotin := (List.nodup_cons.mp hnd).1
    have hnd' := (List.nodup_cons.mp hnd).2
    rw [List.flatMap_cons, List.count_append]
    by_cases hkk : k = key
    · subst hkk
      rw [count_env002_flatMap_not_mem q ex en k ks hknotin]
      cases hq : q k
      · simp [List.count_cons, hq]
      · simp [hq, hknotin]
    · have hne : env002Finding ex en k ≠ env002Finding ex en key := fun hc =>
        hkk (env002Finding_key_inj hc)
      rw [ih hnd']
      have hmemiff : key ∈ k :: ks ↔ key ∈ ks := by
        rw [List.mem_cons]
        exact ⟨fun h => h.elim (fun hc => absurd hc.symm hkk) id, Or.inr⟩
      cases hq : q k
      · simp [List.count_cons, hne, hmemiff]
      · simp [hne, hmemiff]

/-- C6: when an example env file is found and no env file is found at all,
`checkEnvExample` emits exactly one warning ENV003 finding pointing at the
example file and nothing else; when a found example and a found primary
file (`.env` or `.env.local`) both exist, it emits zero ENV003 findings
and exactly one warning ENV002 finding per key present in the example and
absent from the primary. -/
theorem C6_envExample_diff (envFiles examples : List FileArt) (ex en : FileArt)
    (key : String) :
    (hasEnvExample examples = true → hasEnv envFiles = false →
      checkEnvExample envFiles examples
        = [env003Finding
            (((examples.find? (fun e => e.found)).map (fun e => e.path)).getD "")])
    ∧ (examples.find? (fun e => e.found) = some ex →
       envFiles.find? isPrimaryEnv = some en →
       ((checkEnvExample envFiles examples).countP (fun f => f.code == "ENV003") = 0
        ∧ (checkEnvExample envFiles examples).count (env002Finding ex.path en.path key)
            = if (envKeys (parseEnvFile ex.content)).contains key
                 && !((parseEnvFile en.content).any (fun p => p.1 == key)) then 1
              else 0)) := by
  constructor
  · intro hex henv
    unfold checkEnvExample
    rw [hex, henv]
    simp
  · intro hfex hfen
    have hex : hasEnvExample examples = true := by
      unfold hasEnvExample
      exact List.any_eq_true.mpr
        ⟨ex, List.mem_of_find?_eq_some hfex, List.find?_some hfex⟩
    have henf : isPrimaryEnv en = true := List.find?_some hfen
    have henfound : en.found = true := by
      unfold isPrimaryEnv at henf
      rw [Bool.and_eq_true] at henf
      exact henf.1
    have henv : hasEnv envFiles = true := by
      unfold hasEnv
      exact List.any_eq_true.mpr ⟨en, List.mem_of_find?_eq_some hfen, henfound⟩
    have hform : checkEnvExample envFiles examples
        = (envKeys (parseEnvFile ex.content)).flatMap (fun k =>
            if (parseEnvFile en.content).any (fun p => p.1 == k) then []
            else [env002Finding ex.path en.path k]) := by
      unfold checkEnvExample
      rw [hex, henv, hfex, hfen]
      simp
    constructor
    · rw [hform, List.countP_eq_zero]
      intro f hf
      rw [List.mem_flatMap] at hf
      obtain ⟨k, _, hk⟩ := hf
      by_cases hq : (parseEnvFile en.content).any (fun p => p.1 == k) = true
      · rw [if_pos hq] at hk
        simp at hk
      · rw [if_neg hq] at hk
        rw [List.mem_singleton] at hk
        subst hk
        simp [env002Finding]
    · rw [hform, count_env002_flatMap _ _ _ _ _ (nodup_envKeys_parseEnvFile ex.content)]
      by_cases hmem : key ∈ envKeys (parseEnvFile ex.content)
      · by_cases hq : (parseEnvFile en.content).any (fun p => p.1 == key) = true
        · simp [hmem, hq]
        · simp [hmem, hq, Bool.not_eq_true]
      · simp [hmem]

/-- C6 witness: example `{A, B}` against primary `{A}` (one ENV002, for B,
zero ENV003), and an example with no env file at all (one ENV003). -/
theorem C6_envExample_diff_witness :
    (checkEnvExample [⟨".env", false, none⟩]
        [⟨".env.example", true, some ["A=1", "B=2"]⟩]
      = [env003Finding ".env.example"])
    ∧ ((checkEnvExample [⟨".env", true, some ["A=1"]⟩]
          [⟨".env.example", true, some ["A=1", "B=2"]⟩]).countP
            (fun f => f.code == "ENV003") = 0
       ∧ (checkEnvExample [⟨".env", true, some ["A=1"]⟩]
          [⟨".env.example", true, some ["A=1", "B=2"]⟩]).count
            (env002Finding ".env.example" ".env" "B") = 1) := by
  have hA := (C6_envExample_diff [⟨".env", false, none⟩]
    [⟨".env.example", true, some ["A=1", "B=2"]⟩]
    ⟨".env.example", true, some ["A=1", "B=2"]⟩ ⟨".env", true, some ["A=1"]⟩ "B").1
    (by decide) (by decide)
  have hB := (C6_envExample_diff [⟨".env", true, some ["A=1"]⟩]
    [⟨".env.example", true, some ["A=1", "B=2"]⟩]
    ⟨".env.example", true, some ["A=1", "B=2"]⟩ ⟨".env", true, some ["A=1"]⟩ "B").2
    (by decide) (by decide)
  refine ⟨by simpa using hA, hB.1, ?_⟩
  rw [hB.2]
  decide

/-- C10: when an example env file is found, at least one env file is found,
but no found env file has path exactly `.env` or `.env.local`,
`checkEnvExample` emits no findings at all: no ENV003 because an env file
exists, and no ENV002 because no primary file is selected, so the key diff
is skipped entirely. -/
theorem C10_no_primary_no_findings (envFiles examples : List FileArt)
    (hex : hasEnvExample examples = true)
    (henv : hasEnv envFiles = true)
    (hnone : ∀ e ∈ envFiles, e.found = true →
      ¬ e.path = ".env" ∧ ¬ e.path = ".env.local") :
    checkEnvExample envFiles examples = [] := by
  have hfind : envFiles.find? isPrimaryEnv = none := by
    rw [List.find?_eq_none]
    intro e he
    unfold isPrimaryEnv
    intro hpe
    rw [Bool.and_eq_true] at hpe
    rcases hpe with ⟨hfound, hpath⟩
    rcases hnone e he hfound with ⟨h1, h2⟩
    rw [Bool.or_eq_true] at hpath
    rcases hpath with hp | hp
    · exact h1 (by simpa using hp)
    · exact h2 (by simpa using hp)
  unfold checkEnvExample
  rw [hex, henv]
  rcases hfex : examples.find? (fun e => e.found) with _ | ex <;>
    simp [hfex, hfind]

/-- C10 witness: a found `.env.production` (not a primary name) plus a
found example yields no findings. -/
theorem C10_no_primary_no_findings_witness :
    checkEnvExample [⟨".env.production", true, some []⟩]
      [⟨".env.example", true, some []⟩] = [] :=
  C10_no_primary_no_findings
    [⟨".env.production", true, some []⟩] [⟨".env.example", true, some []⟩]
    (by decide) (by decide) (by decide)

/-! ### Claim C7 -/

theorem extractDependsOn_list_form (names : List String) :
    extractDependsOn (dependsOnList names) = names := by
  induction names with
  | nil => rfl
  | cons n ns ih =>
    simp only [dependsOnList, extractDependsOn, List.map_cons, List.filterMap_cons] at ih ⊢
    rw [ih]

theorem extractDependsOn_mapping_form (pairs : List (String × YamlNode)) :
    extractDependsOn (dependsOnMapping pairs) = pairs.map (fun p => p.1) := by
  induction pairs with
  | nil => rfl
  | cons p ps ih =>
    simp only [dependsOnMapping, extractDependsOn, List.flatMap_cons, List.cons_append,
      List.nil_append, List.singleton_append, evenEntries, List.map_cons, yamlValue] at ih ⊢
    rw [ih]

theorem checkComposeDependsOn_inner (services : List ComposeService) (path : String)
    (svc : ComposeService) (acc : List Finding) :
    (extractDependsOn svc.dependsOn).foldl (fun acc3 dep =>
        if !((services.map (fun s => s.name)).contains dep) then
          acc3 ++ [cmp001Finding svc.name dep path]
        else acc3) acc
      = acc ++ (extractDependsOn svc.dependsOn).flatMap (fun dep =>
          if !((services.map (fun s => s.name)).contains dep) then
            [cmp001Finding svc.name dep path]
          else []) := by
  apply foldl_append_form
  intro acc3 dep
  cases hc : (services.map (fun s => s.name)).contains dep
  · simp only [hc, Bool.not_false, eq_self_iff_true, if_true]
  · simp only [hc, Bool.not_true, Bool.false_eq_true, if_false, List.append_nil]

theorem checkComposeDependsOn_spec (manifests : List ComposeManifest) :
    checkComposeDependsOn manifests
      = manifests.flatMap (fun m =>
          if m.found then
            match m.services with
            | none => []
            | some services =>
              services.flatMap (fun svc =>
                (extractDependsOn svc.dependsOn).flatMap (fun dep =>
                  if !((services.map (fun s => s.name)).contains dep) then
                    [cmp001Finding svc.name dep m.path]
                  else []))
          else []) := by
  unfold checkComposeDependsOn
  have main := foldl_append_form
    (fun acc m =>
      if !m.found then acc
      else
        match m.services with
        | none => acc
        | some services =>
          services.foldl (fun acc2 svc =>
            (extractDependsOn svc.dependsOn).foldl (fun acc3 dep =>
              if !((services.map (fun s => s.name)).contains dep) then
                acc3 ++ [cmp001Finding svc.name dep m.path]
              else acc3) acc2) acc)
    (fun m =>
      if m.found then
        match m.services with
        | none => []
        | some services =>
          services.flatMap (fun svc =>
            (extractDependsOn svc.dependsOn).flatMap (fun dep =>
              if !((services.map (fun s => s.name)).contains dep) then
                [cmp001Finding svc.name dep m.path]
              else []))
      else [])
    ?_ manifests []
  · simpa using main
  · intro acc m
    cases hfound : m.found
    · simp [hfound]
    · cases hsvc : m.services with
      | none => simp [hfound, hsvc]
      | some services =>
        simp only [hfound, hsvc, Bool.not_true, Bool.false_eq_true, if_false, if_true]
        apply foldl_append_form
        intro acc2 svc
        exact checkComposeDependsOn_inner services m.path svc acc2

/-- C7: for every found compose manifest whose services mapping parses,
`checkComposeDependsOn` emits exactly one blocking CMP001 finding per
`depends_on` reference that is not a declared service name, naming the
dependent service and the missing target and located at the manifest file
with line `0` (no line number); the extracted references are identical for
the list form and the mapping form of `depends_on`. -/
theorem C7_dependsOn_validation (manifests : List ComposeManifest)
    (pairs : List (String × YamlNode)) :
    (checkComposeDependsOn manifests
      = manifests.flatMap (fun m =>
          if m.found then
            match m.services with
            | none => []
            | some services =>
              services.flatMap (fun svc =>
                (extractDependsOn svc.dependsOn).flatMap (fun dep =>
                  if !((services.map (fun s => s.name)).contains dep) then
                    [cmp001Finding svc.name dep m.path]
                  else []))
          else []))
    ∧ extractDependsOn (dependsOnList (pairs.map (fun p => p.1)))
        = pairs.map (fun p => p.1)
    ∧ extractDependsOn (dependsOnMapping pairs) = pairs.map (fun p => p.1)
    ∧ (∀ svcName dep path : String,
        (cmp001Finding svcName dep path).files = [{ file := path, line := 0 }]) :=
  ⟨checkComposeDependsOn_spec manifests,
   extractDependsOn_list_form (pairs.map (fun p => p.1)),
   extractDependsOn_mapping_form pairs,
   fun _ _ _ => rfl⟩

/-! ### Claim C8 -/

theorem flatMap_if_singleton {α : Type} (p : α → Bool) (l : List α) :
    l.flatMap (fun x => if p x then [x] else []) = l.filter p := by
  induction l with
  | nil => rfl
  | cons x xs ih =>
    cases hp : p x <;> simp [List.filter_cons, hp, ih]

theorem filterIgnoredFindings_eq (findings : List Finding) (cfg : Config) :
    filterIgnoredFindings findings cfg
      = findings.filter (fun f => !(ShouldIgnoreCode cfg f.code)) := by
  unfold filterIgnoredFindings
  cases hempty : cfg.ignoreCodes.isEmpty
  · simp only [Bool.false_eq_true, if_false]
    rw [foldl_append_form _
      (fun f => if !(ShouldIgnoreCode cfg f.code) then [f] else []) ?_ findings [],
      flatMap_if_singleton]
    · simp
    · intro acc f
      by_cases hc : (!(ShouldIgnoreCode cfg f.code)) = true
      · simp [hc]
      · simp [hc]
  · have h0 : cfg.ignoreCodes = [] := by simpa using hempty
    simp only [if_true]
    unfold ShouldIgnoreCode
    rw [h0]
    simp

theorem FilterFindings_eq (p : Profile) (l : List Finding) :
    FilterFindings p l
      = l.filter (fun f =>
          !(decide (SeverityLevel f.severity < SeverityLevel p.minSeverity))
          && !((f.severity == Severity.info) && !p.includeInfo)
          && (p.enabledChecks.isEmpty || p.enabledChecks.contains f.code)
          && !(p.disabledChecks.contains f.code)) := by
  unfold FilterFindings
  rw [foldl_append_form _
    (fun f =>
      if (!(decide (SeverityLevel f.severity < SeverityLevel p.minSeverity))
          && !((f.severity == Severity.info) && !p.includeInfo)
          && (p.enabledChecks.isEmpty || p.enabledChecks.contains f.code)
          && !(p.disabledChecks.contains f.code)) then [f] else []) ?_ l [],
    flatMap_if_singleton]
  · simp
  · intro acc f
    cases h1 : decide (SeverityLevel f.severity < SeverityLevel p.minSeverity) <;>
      cases h2 : f.severity == Severity.info <;>
      cases h3 : p.includeInfo <;>
      cases h4 : p.enabledChecks.isEmpty <;>
      cases h5 : p.enabledChecks.contains f.code <;>
      cases h6 : p.disabledChecks.contains f.code <;>
      simp only [h1, h2, h3, h4, h5, h6, Bool.not_true, Bool.not_false,
        Bool.false_and, Bool.true_and, Bool.and_false, Bool.and_true,
        Bool.false_or, Bool.true_or, Bool.or_false, Bool.or_true,
        Bool.false_eq_true, eq_self_iff_true, if_true, if_false, List.append_nil]

theorem applyFilters_eq (cfg : Config) (p : Profile) (findings : List Finding) :
    applyFilters cfg p findings = findings.filter (profileKeep cfg p) := by
  unfold applyFilters
  rw [filterIgnoredFindings_eq, FilterFindings_eq, List.filter_filter]
  apply List.filter_congr
  intro f _
  unfold profileKeep
  cases hq : ShouldIgnoreCode cfg f.code <;>
    cases h1 : decide (SeverityLevel f.severity < SeverityLevel p.minSeverity) <;>
    cases h2 : (f.severity == Severity.info) && !p.includeInfo <;>
    cases h3 : p.enabledChecks.isEmpty || p.enabledChecks.contains f.code <;>
    cases h6 : p.disabledChecks.contains f.code <;>
    simp only [hq, h1, h2, h3, h6, Bool.not_true, Bool.not_false,
      Bool.false_and, Bool.true_and, Bool.and_false, Bool.and_true]

/-- C8: the post-processing pipeline first drops findings whose code is in
`Config.ignore_codes` and then applies the profile (severity floor, info
gating, allow-list when non-empty, deny-list), which together amount to a
single filter with the conjunction of those conditions; on 1 blocking + 2
warning + 3 info findings the `minimal` profile keeps exactly the blocking
finding and the `ci` profile keeps exactly the blocking and the two warning
findings, excluding all info. -/
theorem C8_filter_pipeline (cfg : Config) (p : Profile) (findings : List Finding) :
    (applyFilters cfg p findings = findings.filter (profileKeep cfg p))
    ∧ applyFilters emptyConfig minimalProfile sampleFindings
        = [NewFinding "CMP001" .blocking "b1"]
    ∧ applyFilters emptyConfig ciProfile sampleFindings
        = [NewFinding "CMP001" .blocking "b1",
           NewFinding "ENV002" .warning "w1",
           NewFinding "SRC001" .warning "w2"] :=
  ⟨applyFilters_eq cfg p findings, by decide, by decide⟩

/-! ### Claim C9 -/

theorem checkCustomRules_spec (compile : String → Option (String → Bool))
    (envFiles : List FileArt) (cfg : Config) :
    checkCustomRules compile envFiles cfg
      = cfg.customRules.flatMap (fun rule =>
          if rule.required then
            match compile rule.pattern with
            | none => []
            | some matcher =>
              if (definedVarsList envFiles).any matcher then []
              else [customRuleFinding rule]
          else []) := by
  unfold checkCustomRules
  cases hempty : cfg.customRules.isEmpty
  · simp only [Bool.false_eq_true, if_false]
    have main := foldl_append_form
      (fun acc rule =>
        if !rule.required then acc
        else
          match compile rule.pattern with
          | none => acc
          | some matcher =>
            if (definedVarsList envFiles).any matcher then acc
            else acc ++ [customRuleFinding rule])
      (fun rule =>
        if rule.required then
          match compile rule.pattern with
          | none => []
          | some matcher =>
            if (definedVarsList envFiles).any matcher then []
            else [customRuleFinding rule]
        else [])
      ?_ cfg.customRules []
    · simpa using main
    · intro acc rule
      cases hreq : rule.required
      · simp [hreq]
      · cases hc : compile rule.pattern with
        | none => simp [hreq, hc]
        | some matcher =>
          cases hany : (definedVarsList envFiles).any matcher <;>
            simp [hreq, hc, hany]
  · have h0 : cfg.customRules = [] := by simpa using hempty
    rw [h0]
    simp

/-- C9: for every configured custom rule with `required = true` whose
pattern compiles, `checkCustomRules` emits exactly one `CUSTOM-<id>`
finding when no defined variable name matches and nothing when one does; a
rule whose pattern fails to compile is silently skipped, a rule with
`required = false` is never evaluated, and the finding's severity is the
configured one, with `blocking` and `info` recognized and any other value
defaulting to `warning`.  The statement holds for every regex-compilation
function. -/
theorem C9_custom_rules (compile : String → Option (String → Bool))
    (envFiles : List FileArt) (cfg : Config) (s : String)
    (h1 : ¬ s = "blocking") (h2 : ¬ s = "info") :
    (checkCustomRules compile envFiles cfg
      = cfg.customRules.flatMap (fun rule =>
          if rule.required then
            match compile rule.pattern with
            | none => []
            | some matcher =>
              if (definedVarsList envFiles).any matcher then []
              else [customRuleFinding rule]
          else []))
    ∧ parseSeverity s = Severity.warning
    ∧ parseSeverity "blocking" = Severity.blocking
    ∧ parseSeverity "info" = Severity.info
    ∧ (∀ rule : CustomRule, (customRuleFinding rule).severity = parseSeverity rule.severity) := by
  refine ⟨checkCustomRules_spec compile envFiles cfg, ?_, by decide, by decide, fun _ => rfl⟩
  unfold parseSeverity
  have hb : (s == "blocking") = false := by simpa using h1
  have hi : (s == "info") = false := by simpa using h2
  rw [hb, hi]
  rfl

/-- C9 witness: a required rule whose pattern compiles but matches no
defined name (no env files at all) yields exactly its `CUSTOM-R1` finding;
an unrecognized severity string maps to `warning`. -/
theorem C9_custom_rules_witness :
    (checkCustomRules (fun _ => some (fun _ => false)) []
        ⟨[⟨"R1", "^DB_", true, "db vars", "loud"⟩], [], []⟩
      = [customRuleFinding ⟨"R1", "^DB_", true, "db vars", "loud"⟩])
    ∧ parseSeverity "loud" = Severity.warning := by
  have h := C9_custom_rules (fun _ => some (fun _ => false)) []
    ⟨[⟨"R1", "^DB_", true, "db vars", "loud"⟩], [], []⟩ "loud"
    (by decide) (by decide)
  refine ⟨?_, h.2.1⟩
  rw [h.1]
  decide

end DevCheck
